import Mathlib

/-!
Shallow embedding of the STARK-VDF core (src/main.rs) and verification of its
specification.

The program evaluates the VDF `x -> (x - 42) ^ INV_ALPHA` over the 128-bit
prime field used by the external proving engine (modulus
`P = 2^128 - 45 * 2^40 + 1`), records every intermediate state in a
single-column execution trace, and describes the validity of such a trace to a
STARK engine via one degree-3 transition constraint and two boundary
assertions.

Modelling conventions:
- a field element (`Felt` in the source) is `ZMod P`;
- the external library's `FieldElement::exp` (square-and-multiply modular
  exponentiation) is embedded as the fuel-driven `powFuel`/`fexp`, proved equal
  to the mathematical power `b ^ e`;
- `usize` subtraction `n - 1` in debug semantics is embedded as `checkedSub`,
  which returns `none` (a panic) on underflow, so the fallible entry points
  `vdf` and `build_trace` return `Option`;
- the engine-side types (`TraceTable`, `Assertion`, the serialization target
  of `write_into`) are embedded at the granularity the core uses them:
  a trace table is its list of columns, a byte writer is the list of field
  elements written to it, in order.
-/

set_option maxRecDepth 40000

namespace StarkVdf

/-- Modulus of the `f128` base field used by the program
(`winterfell::math::fields::f128`): `P = 2^128 - 45 * 2^40 + 1`. -/
def P : Nat := 340282366920938463463374557953744961537

/-- A base-field element (`Felt` in src/main.rs line 3). -/
abbrev Felt : Type := ZMod P

/-- Constant `ALPHA` (src/main.rs line 12): the small forward exponent. -/
def ALPHA : Nat := 3

/-- Constant `INV_ALPHA` (src/main.rs line 13): the multiplicative inverse of
`ALPHA` modulo `P - 1`. -/
def INV_ALPHA : Nat := 226854911280625642308916371969163307691

/-- Constant `FORTY_TWO` (src/main.rs line 14). -/
def FORTY_TWO : Felt := 42

/-- Fuel-driven square-and-multiply exponentiation: the embedding of the
external library's `FieldElement::exp`, written so that the kernel can
evaluate it on concrete inputs. -/
def powFuel {M : Type} [Monoid M] : M → Nat → Nat → M
  | _, _, 0 => 1
  | b, e, fuel + 1 =>
    if e = 0 then 1
    else
      let r := powFuel (b * b) (e / 2) fuel
      if e % 2 = 1 then b * r else r

/-- Exponentiation `b ^ e` with enough fuel for any exponent. -/
def fexp {M : Type} [Monoid M] (b : M) (e : Nat) : M := powFuel b e (e + 1)

theorem powFuel_eq {M : Type} [Monoid M] :
    ∀ (fuel : Nat) (b : M) (e : Nat), e < 2 ^ fuel → powFuel b e fuel = b ^ e := by
  intro fuel
  induction fuel with
  | zero =>
    intro b e he
    have he0 : e = 0 := Nat.lt_one_iff.mp (by simpa using he)
    subst he0
    simp [powFuel]
  | succ f ih =>
    intro b e he
    by_cases h0 : e = 0
    · subst h0
      simp [powFuel]
    · have hdiv : e / 2 < 2 ^ f := by
        apply Nat.div_lt_of_lt_mul
        calc e < 2 ^ (f + 1) := he
          _ = 2 * 2 ^ f := by rw [Nat.pow_succ, Nat.mul_comm]
      have hsplit : powFuel b e (f + 1) =
          if e % 2 = 1 then b * powFuel (b * b) (e / 2) f else powFuel (b * b) (e / 2) f := by
        simp [powFuel, h0]
      rw [hsplit, ih (b * b) (e / 2) hdiv, ← pow_two, ← pow_mul]
      rcases Nat.mod_two_eq_zero_or_one e with hm | hm
      · rw [if_neg (by omega)]
        congr 1
        omega
      · rw [if_pos hm, ← pow_succ']
        congr 1
        omega

theorem fexp_eq {M : Type} [Monoid M] (b : M) (e : Nat) : fexp b e = b ^ e :=
  powFuel_eq (e + 1) b e
    (lt_of_lt_of_le (Nat.lt_two_pow e) (Nat.pow_le_pow_right (by norm_num) (Nat.le_succ e)))

/-- One VDF step, as performed by both `vdf` (src/main.rs line 82) and
`VdfProver::build_trace` (src/main.rs line 168):
`state = (state - FORTY_TWO).exp(INV_ALPHA)`. -/
def transition (x : Felt) : Felt := fexp (x - FORTY_TWO) INV_ALPHA

/-- The `for _ in 0..k` loop body shared by `vdf`: apply `transition` `k`
times to the running state. -/
def vdfLoop : Nat → Felt → Felt
  | 0, state => state
  | k + 1, state => vdfLoop k (transition state)

/-- Machine-integer (`usize`) subtraction under debug semantics: `none`
models the overflow panic raised when the subtrahend exceeds the minuend. -/
def checkedSub (a b : Nat) : Option Nat :=
  if b ≤ a then some (a - b) else none

/-- The VDF evaluator `vdf` (src/main.rs lines 79-85): starting from `seed`,
apply the transition `n - 1` times, where `n - 1` is computed on a `usize`. -/
def vdf (seed : Felt) (n : Nat) : Option Felt :=
  (checkedSub n 1).map fun iters => vdfLoop iters seed

/-- The `n - 1` pushes performed by the loop of `VdfProver::build_trace`
(src/main.rs lines 167-170): each iteration advances the running state by one
`transition` and pushes it. -/
def buildTraceAux : Nat → Felt → List Felt
  | 0, _ => []
  | k + 1, state =>
    let nextState := transition state
    nextState :: buildTraceAux k nextState

/-- An execution-trace table, embedded as its list of columns
(`TraceTable<Felt>` of the external engine, at the granularity the core
uses it: `TraceTable::init(vec![trace])`). -/
structure TraceTable where
  columns : List (List Felt)
deriving DecidableEq

/-- `TraceTable::init`: package a list of columns as a trace table. -/
def TraceTable.init (cols : List (List Felt)) : TraceTable := ⟨cols⟩

/-- The trace builder `VdfProver::build_trace` (src/main.rs lines 162-173):
push `seed`, then loop `n - 1` times pushing the successive states, and wrap
the resulting column in a single-column table; `n - 1` is computed on a
`usize`. -/
def build_trace (seed : Felt) (n : Nat) : Option TraceTable :=
  (checkedSub n 1).map fun iters => TraceTable.init [seed :: buildTraceAux iters seed]

/-- The public inputs `VdfInputs` (src/main.rs lines 90-94). -/
structure VdfInputs where
  seed : Felt
  result : Felt

/-- Append one field element to a byte writer (the writer is embedded as the
ordered list of field elements written to it). -/
def writeFelt (target : List Felt) (x : Felt) : List Felt := target ++ [x]

/-- `VdfInputs::write_into` (src/main.rs lines 96-101): write the seed, then
the result. -/
def VdfInputs.write_into (self : VdfInputs) (target : List Felt) : List Felt :=
  writeFelt (writeFelt target self.seed) self.result

/-- A boundary assertion `Assertion::single(column, step, value)` of the
external engine. -/
structure Assertion where
  column : Nat
  step : Nat
  value : Felt
deriving DecidableEq

/-- `Assertion::single`: pin one trace cell to a value. -/
def Assertion.single (column step : Nat) (value : Felt) : Assertion :=
  ⟨column, step, value⟩

/-- The AIR for the VDF, `VdfAir` (src/main.rs lines 106-110): it carries the
trace length (through its `AirContext`) and the two public values. -/
structure VdfAir where
  trace_length : Nat
  seed : Felt
  result : Felt

/-- The `degrees` vector built in `VdfAir::new` (src/main.rs line 117): a
single transition constraint of declared degree 3
(`vec![TransitionConstraintDegree::new(3)]`). -/
def VdfAir.degrees : List Nat := [3]

/-- `VdfAir::new` (src/main.rs lines 116-123). -/
def VdfAir.new (trace_length : Nat) (pub_inputs : VdfInputs) : VdfAir :=
  ⟨trace_length, pub_inputs.seed, pub_inputs.result⟩

/-- The transition constraint evaluation `VdfAir::evaluate_transition`
(src/main.rs lines 125-135) on a frame of two consecutive rows:
`current_state - (next_state.exp(ALPHA.into()) + FORTY_TWO)`. -/
def VdfAir.evaluate_transition (current next : Felt) : Felt :=
  current - (fexp next ALPHA + FORTY_TWO)

/-- `VdfAir::get_assertions` (src/main.rs lines 137-143): pin row 0 to the
seed and row `trace_length - 1` to the result, both on column 0. -/
def VdfAir.get_assertions (self : VdfAir) : List Assertion :=
  [Assertion.single 0 0 self.seed,
   Assertion.single 0 (self.trace_length - 1) self.result]

/-- The transition constraint of `VdfAir::evaluate_transition` read as a
polynomial in the two trace variables (variable 0 is `current_state`,
variable 1 is `next_state`): `current - (next ^ ALPHA + 42)`. -/
noncomputable def constraintPoly : MvPolynomial (Fin 2) Felt :=
  MvPolynomial.X 0 - (MvPolynomial.X 1 ^ ALPHA + MvPolynomial.C FORTY_TWO)

/-! ### Helper lemmas about the loops -/

theorem vdfLoop_eq_iterate : ∀ (k : Nat) (s : Felt), vdfLoop k s = transition^[k] s := by
  intro k
  induction k with
  | zero => intro s; rfl
  | succ k ih =>
    intro s
    calc vdfLoop (k + 1) s = vdfLoop k (transition s) := rfl
      _ = transition^[k] (transition s) := ih (transition s)
      _ = transition^[k + 1] s := (Function.iterate_succ_apply transition k s).symm

theorem buildTraceAux_length : ∀ (k : Nat) (s : Felt), (buildTraceAux k s).length = k := by
  intro k
  induction k with
  | zero => intro s; rfl
  | succ k ih => intro s; simp [buildTraceAux, ih]

theorem buildTraceAux_get? : ∀ (k : Nat) (s : Felt) (i : Nat), i < k →
    (buildTraceAux k s).get? i = some (transition^[i + 1] s) := by
  intro k
  induction k with
  | zero => intro s i h; exact absurd h (Nat.not_lt_zero i)
  | succ k ih =>
    intro s i h
    cases i with
    | zero => simp [buildTraceAux]
    | succ i =>
      have hstep : (buildTraceAux (k + 1) s).get? (i + 1) =
          (buildTraceAux k (transition s)).get? i := rfl
      rw [hstep, ih (transition s) i (by omega), ← Function.iterate_succ_apply]

/-- Entry `i` of the column built by `build_trace` is the `i`-th iterate of
the transition applied to the seed. -/
theorem traceColumn_get? (k : Nat) (s : Felt) (i : Nat) (h : i ≤ k) :
    (s :: buildTraceAux k s).get? i = some (transition^[i] s) := by
  cases i with
  | zero => rfl
  | succ i =>
    have hstep : (s :: buildTraceAux k s).get? (i + 1) = (buildTraceAux k s).get? i := rfl
    rw [hstep, buildTraceAux_get? k s i (by omega)]

/-! ### Primality of the field modulus

`P - 1 = 2^40 * 29 * 181 * 286619 * 11394379 * 18053749339`, and `3` is a
primitive root modulo `P`, which yields a Lucas certificate for `P`.  The
largest cofactor `18053749339` gets its own Lucas certificate
(`18053749338 = 2 * 3 * 157 * 19165339`). -/

theorem prime_19165339 : Nat.Prime 19165339 := by norm_num

theorem prime_18053749339 : Nat.Prime 18053749339 := by
  apply lucas_primality 18053749339 3
  · rw [← fexp_eq]
    decide
  · intro q hq hdvd
    have hfac : (18053749339 - 1 : Nat) = 2 * (3 * (157 * 19165339)) := by norm_num
    have hq4 : q = 2 ∨ q = 3 ∨ q = 157 ∨ q = 19165339 := by
      rw [hfac] at hdvd
      rcases (Nat.Prime.dvd_mul hq).mp hdvd with h | h
      · exact Or.inl ((Nat.prime_dvd_prime_iff_eq hq Nat.prime_two).mp h)
      rcases (Nat.Prime.dvd_mul hq).mp h with h | h
      · exact Or.inr (Or.inl ((Nat.prime_dvd_prime_iff_eq hq Nat.prime_three).mp h))
      rcases (Nat.Prime.dvd_mul hq).mp h with h | h
      · exact Or.inr (Or.inr (Or.inl ((Nat.prime_dvd_prime_iff_eq hq (by norm_num)).mp h)))
      · exact Or.inr (Or.inr (Or.inr ((Nat.prime_dvd_prime_iff_eq hq prime_19165339).mp h)))
    rcases hq4 with rfl | rfl | rfl | rfl
    all_goals rw [← fexp_eq]
    all_goals decide

theorem prime_P : Nat.Prime P := by
  have hfac : P - 1 = 2 ^ 40 * (29 * (181 * (286619 * (11394379 * 18053749339)))) := by
    decide
  apply lucas_primality P 3
  · rw [← fexp_eq]
    decide
  · intro q hq hdvd
    have hq6 : q = 2 ∨ q = 29 ∨ q = 181 ∨ q = 286619 ∨ q = 11394379 ∨ q = 18053749339 := by
      rw [hfac] at hdvd
      rcases (Nat.Prime.dvd_mul hq).mp hdvd with h | h
      · exact Or.inl ((Nat.prime_dvd_prime_iff_eq hq Nat.prime_two).mp (hq.dvd_of_dvd_pow h))
      rcases (Nat.Prime.dvd_mul hq).mp h with h | h
      · exact Or.inr (Or.inl ((Nat.prime_dvd_prime_iff_eq hq (by norm_num)).mp h))
      rcases (Nat.Prime.dvd_mul hq).mp h with h | h
      · exact Or.inr (Or.inr (Or.inl ((Nat.prime_dvd_prime_iff_eq hq (by norm_num)).mp h)))
      rcases (Nat.Prime.dvd_mul hq).mp h with h | h
      · exact Or.inr (Or.inr (Or.inr (Or.inl
          ((Nat.prime_dvd_prime_iff_eq hq (by norm_num)).mp h))))
      rcases (Nat.Prime.dvd_mul hq).mp h with h | h
      · exact Or.inr (Or.inr (Or.inr (Or.inr (Or.inl
          ((Nat.prime_dvd_prime_iff_eq hq (by norm_num)).mp h)))))
      · exact Or.inr (Or.inr (Or.inr (Or.inr (Or.inr
          ((Nat.prime_dvd_prime_iff_eq hq prime_18053749339).mp h)))))
    rcases hq6 with rfl | rfl | rfl | rfl | rfl | rfl
    all_goals rw [← fexp_eq]
    all_goals decide

instance : Fact (Nat.Prime P) := ⟨prime_P⟩

/-- Core exponent identity: `ALPHA * INV_ALPHA = 2 * (P - 1) + 1`, so the
composite exponent acts as the identity on every field element (including
zero). -/
theorem pow_two_p_sub_one_add_one (x : Felt) : x ^ (2 * (P - 1) + 1) = x := by
  by_cases hx : x = 0
  · subst hx
    exact zero_pow (Nat.succ_ne_zero _)
  · rw [pow_add, pow_one, mul_comm 2 (P - 1), pow_mul,
      ZMod.pow_card_sub_one_eq_one hx, one_pow, one_mul]

theorem pow_inv_alpha_alpha (x : Felt) : (x ^ INV_ALPHA) ^ ALPHA = x := by
  rw [← pow_mul, show INV_ALPHA * ALPHA = 2 * (P - 1) + 1 from by decide]
  exact pow_two_p_sub_one_add_one x

theorem pow_alpha_inv_alpha (x : Felt) : (x ^ ALPHA) ^ INV_ALPHA = x := by
  rw [← pow_mul, show ALPHA * INV_ALPHA = 2 * (P - 1) + 1 from by decide]
  exact pow_two_p_sub_one_add_one x

/-! ### Claim theorems -/

/-- C1: for every seed and every `n ≥ 2`, `build_trace seed n` returns a
single-column trace with exactly `n` rows, whose row 0 is the seed and in
which every row `i ∈ [1, n-1]` is obtained from row `i-1` by the transition
`x ↦ (x - 42) ^ INV_ALPHA`. -/
theorem build_trace_rows (seed : Felt) (n : Nat) (h : 2 ≤ n) :
    ∃ col : List Felt,
      build_trace seed n = some (TraceTable.init [col]) ∧
      col.length = n ∧
      col.get? 0 = some seed ∧
      (∀ x : Felt, transition x = (x - FORTY_TWO) ^ INV_ALPHA) ∧
      (∀ i : Nat, 1 ≤ i → i ≤ n - 1 → col.get? i = (col.get? (i - 1)).map transition) := by
  have h1 : 1 ≤ n := by omega
  refine ⟨seed :: buildTraceAux (n - 1) seed, ?_, ?_, rfl, ?_, ?_⟩
  · simp [build_trace, checkedSub, h1]
  · simp only [List.length_cons, buildTraceAux_length]
    omega
  · intro x
    rw [transition, fexp_eq]
  · intro i hi1 hi2
    rw [traceColumn_get? (n - 1) seed i hi2,
      traceColumn_get? (n - 1) seed (i - 1) (by omega), Option.map_some']
    have hi : i = (i - 1) + 1 := by omega
    nth_rewrite 1 [hi]
    rw [Function.iterate_succ_apply']

/-- Witness for C1 at `seed = 5`, `n = 4`. -/
theorem build_trace_rows_witness :
    ∃ col : List Felt,
      build_trace 5 4 = some (TraceTable.init [col]) ∧
      col.length = 4 ∧
      col.get? 0 = some 5 ∧
      (∀ x : Felt, transition x = (x - FORTY_TWO) ^ INV_ALPHA) ∧
      (∀ i : Nat, 1 ≤ i → i ≤ 4 - 1 → col.get? i = (col.get? (i - 1)).map transition) :=
  build_trace_rows 5 4 (by decide)

/-- C2: for every seed and every `n ≥ 1`, the evaluator `vdf seed n` returns
(without failing) the field element reached after exactly `n - 1` iterated
applications of the map `x ↦ (x - 42) ^ INV_ALPHA` starting from the seed; in
particular `vdf seed 1` returns the seed itself.  (As a Lean function it is
pure and deterministic by construction.) -/
theorem vdf_result (seed : Felt) (n : Nat) (h : 1 ≤ n) :
    vdf seed n = some (transition^[n - 1] seed) ∧
    (∀ x : Felt, transition x = (x - FORTY_TWO) ^ INV_ALPHA) ∧
    vdf seed 1 = some seed := by
  refine ⟨?_, ?_, rfl⟩
  · simp [vdf, checkedSub, h, vdfLoop_eq_iterate]
  · intro x
    rw [transition, fexp_eq]

/-- Witness for C2 at `seed = 5`, `n = 3`. -/
theorem vdf_result_witness :
    vdf 5 3 = some (transition^[3 - 1] 5) ∧
    (∀ x : Felt, transition x = (x - FORTY_TWO) ^ INV_ALPHA) ∧
    vdf 5 1 = some 5 :=
  vdf_result 5 3 (by decide)

/-- C3: for every seed and every `n ≥ 2`, the independently implemented
evaluator and trace builder agree on the final state: `vdf seed n` equals row
`n - 1` of the single column of `build_trace seed n`. -/
theorem vdf_matches_trace_last (seed : Felt) (n : Nat) (h : 2 ≤ n) :
    ∃ (col : List Felt) (v : Felt),
      build_trace seed n = some (TraceTable.init [col]) ∧
      vdf seed n = some v ∧
      col.get? (n - 1) = some v := by
  have h1 : 1 ≤ n := by omega
  refine ⟨seed :: buildTraceAux (n - 1) seed, vdfLoop (n - 1) seed, ?_, ?_, ?_⟩
  · simp [build_trace, checkedSub, h1]
  · simp [vdf, checkedSub, h1]
  · rw [traceColumn_get? (n - 1) seed (n - 1) le_rfl, vdfLoop_eq_iterate]

/-- Witness for C3 at `seed = 5`, `n = 2`. -/
theorem vdf_matches_trace_last_witness :
    ∃ (col : List Felt) (v : Felt),
      build_trace 5 2 = some (TraceTable.init [col]) ∧
      vdf 5 2 = some v ∧
      col.get? (2 - 1) = some v :=
  vdf_matches_trace_last 5 2 (by decide)

/-- C4: the transition constraint computed by `evaluate_transition` is
`current - (next ^ ALPHA + 42)`; it vanishes on every valid step (if
`next = (current - 42) ^ INV_ALPHA` then `next ^ ALPHA + 42 = current`), and
it evaluates to zero exactly when the forward relation holds. -/
theorem evaluate_transition_correct (current next : Felt) :
    VdfAir.evaluate_transition current next = current - (next ^ ALPHA + FORTY_TWO) ∧
    (next = transition current → next ^ ALPHA + FORTY_TWO = current) ∧
    (VdfAir.evaluate_transition current next = 0 ↔ next = transition current) := by
  have hdef : VdfAir.evaluate_transition current next =
      current - (next ^ ALPHA + FORTY_TWO) := by
    rw [VdfAir.evaluate_transition, fexp_eq]
  have htrans : transition current = (current - FORTY_TWO) ^ INV_ALPHA := by
    rw [transition, fexp_eq]
  refine ⟨hdef, ?_, ?_⟩
  · intro hnext
    rw [hnext, htrans, pow_inv_alpha_alpha, sub_add_cancel]
  · rw [hdef, sub_eq_zero]
    constructor
    · intro hc
      rw [htrans, hc, add_sub_cancel_right, pow_alpha_inv_alpha]
    · intro hnext
      rw [hnext, htrans, pow_inv_alpha_alpha, sub_add_cancel]

/-- Witness for C4 at `current = 43`, `next = 1`. -/
theorem evaluate_transition_correct_witness :
    VdfAir.evaluate_transition 43 1 = 43 - ((1 : Felt) ^ ALPHA + FORTY_TWO) ∧
    ((1 : Felt) = transition 43 → (1 : Felt) ^ ALPHA + FORTY_TWO = 43) ∧
    (VdfAir.evaluate_transition 43 1 = 0 ↔ (1 : Felt) = transition 43) :=
  evaluate_transition_correct 43 1

/-- C5: `ALPHA * INV_ALPHA ≡ 1` modulo the multiplicative-group order
`P - 1`, where `P = 2^128 - 45 * 2^40 + 1` is the 128-bit base-field
modulus. -/
theorem alpha_inv_alpha_relation :
    ALPHA * INV_ALPHA % (P - 1) = 1 ∧ P = 2 ^ 128 - 45 * 2 ^ 40 + 1 := by
  constructor
  · decide
  · decide

/-- C6: the constraint degree declared to the proving engine in `VdfAir::new`
is exactly 3, and it matches the actual total degree of the transition
constraint polynomial, whose evaluation agrees with `evaluate_transition`
everywhere. -/
theorem degree_declaration_matches :
    VdfAir.degrees = [3] ∧
    constraintPoly.totalDegree = 3 ∧
    ∀ current next : Felt,
      MvPolynomial.eval (fun i : Fin 2 => if i = 0 then current else next) constraintPoly =
        VdfAir.evaluate_transition current next := by
  have hA : ALPHA = 3 := rfl
  refine ⟨rfl, ?_, ?_⟩
  · apply le_antisymm
    · refine (MvPolynomial.totalDegree_sub _ _).trans (max_le ?_ ?_)
      · rw [MvPolynomial.totalDegree_X]
        omega
      · refine (MvPolynomial.totalDegree_add _ _).trans (max_le ?_ ?_)
        · rw [hA, MvPolynomial.totalDegree_X_pow]
        · rw [MvPolynomial.totalDegree_C]
          omega
    · have hco : MvPolynomial.coeff (Finsupp.single (1 : Fin 2) 3) constraintPoly = -1 := by
        rw [constraintPoly, hA, MvPolynomial.coeff_sub, MvPolynomial.coeff_add,
          MvPolynomial.coeff_X', MvPolynomial.X_pow_eq_monomial, MvPolynomial.coeff_monomial,
          MvPolynomial.coeff_C, if_pos rfl,
          if_neg (by simp [Finsupp.single_eq_single_iff]),
          if_neg (fun hz => (by norm_num : (3 : Nat) ≠ 0)
            (Finsupp.single_eq_zero.mp hz.symm))]
        ring
      have hmem : Finsupp.single (1 : Fin 2) 3 ∈ constraintPoly.support :=
        MvPolynomial.mem_support_iff.mpr (by rw [hco]; exact neg_ne_zero.mpr one_ne_zero)
      have hle := MvPolynomial.le_totalDegree hmem
      simpa [Finsupp.sum_single_index] using hle
  · intro current next
    rw [VdfAir.evaluate_transition, fexp_eq]
    simp [constraintPoly]

/-- Witness for C6: the declared-degree list evaluated concretely. -/
theorem degree_declaration_matches_witness :
    MvPolynomial.eval (fun i : Fin 2 => if i = 0 then (43 : Felt) else 1) constraintPoly =
      VdfAir.evaluate_transition 43 1 :=
  degree_declaration_matches.2.2 43 1

/-- C7: `get_assertions` returns exactly two assertions, both on column 0,
pinning row 0 to the seed and row `trace_length - 1` to the result, in that
order. -/
theorem get_assertions_boundary (air : VdfAir) :
    air.get_assertions =
      [Assertion.single 0 0 air.seed,
       Assertion.single 0 (air.trace_length - 1) air.result] ∧
    air.get_assertions.length = 2 ∧
    air.get_assertions.map Assertion.column = [0, 0] ∧
    air.get_assertions.map Assertion.step = [0, air.trace_length - 1] ∧
    air.get_assertions.map Assertion.value = [air.seed, air.result] :=
  ⟨rfl, rfl, rfl, rfl, rfl⟩

/-- C8: `VdfInputs::write_into` always writes exactly the seed first and the
result second, whatever was already in the writer. -/
theorem write_into_seed_then_result (target : List Felt) (s r : Felt) :
    VdfInputs.write_into ⟨s, r⟩ target = target ++ [s, r] := by
  simp [VdfInputs.write_into, writeFelt]

/-- C9: `build_trace` is deterministic: identical inputs yield identical
traces. -/
theorem build_trace_deterministic (s₁ s₂ : Felt) (n₁ n₂ : Nat)
    (hs : s₁ = s₂) (hn : n₁ = n₂) :
    build_trace s₁ n₁ = build_trace s₂ n₂ := by
  rw [hs, hn]

/-- Witness for C9 at `seed = 5`, `n = 4`. -/
theorem build_trace_deterministic_witness : build_trace 5 4 = build_trace 5 4 :=
  build_trace_deterministic 5 5 4 4 rfl rfl

/-- C10: both `vdf` and `build_trace` compute `n - 1` on an unsigned machine
integer: at `n = 0` the subtraction underflows (a debug-mode panic, `none`),
and under `n ≥ 1` the loop bound is well defined and both functions
succeed. -/
theorem vdf_build_trace_totality (seed : Felt) (n : Nat) (h : 1 ≤ n) :
    vdf seed 0 = none ∧ build_trace seed 0 = none ∧ checkedSub 0 1 = none ∧
    (∃ v : Felt, vdf seed n = some v) ∧
    (∃ t : TraceTable, build_trace seed n = some t) := by
  have hcs : checkedSub n 1 = some (n - 1) := by simp [checkedSub, h]
  exact ⟨rfl, rfl, rfl,
    ⟨vdfLoop (n - 1) seed, by simp [vdf, hcs]⟩,
    ⟨TraceTable.init [seed :: buildTraceAux (n - 1) seed], by simp [build_trace, hcs]⟩⟩

/-- Witness for C10 at `seed = 5`, `n = 1`. -/
theorem vdf_build_trace_totality_witness :
    vdf 5 0 = none ∧ build_trace 5 0 = none ∧ checkedSub 0 1 = none ∧
    (∃ v : Felt, vdf 5 1 = some v) ∧
    (∃ t : TraceTable, build_trace 5 1 = some t) :=
  vdf_build_trace_totality 5 1 (by decide)

end StarkVdf
